import Mathlib

/-!
Shallow embedding of the day-05 cascading interval-remapping engine from
`src/2023/day-05/src/{part1.rs, part1_opt.rs, part2_opt.rs}`.

Machine integers: `u64` values (part1.rs, part2_opt.rs) are modelled as `Nat`
and `i64` values (part1_opt.rs) as `Int`.  All arithmetic performed by these
functions stays far below `2^64` on the inputs considered here, and Rust's
debug build would abort rather than wrap on overflow, so exact arithmetic is
the faithful model; `u64` subtraction appears only where the surrounding
branch guard makes it non-negative, matching `Nat` truncated subtraction.

Fallible code is embedded with `Except`/`Option`; a Rust `unwrap()` panic is
modelled as `Option.none`.
-/

namespace Day05

/-- The error enum of `src/2023/day-05/src/error.rs` (payloads of the parsing
variants are irrelevant to the engine and omitted). -/
inductive Error where
  | IoError : Error
  | CouldNotParseNumber : Error
  | CannotFindNextLine : Nat → Error
  | CannotFindSeedsHeader : Error
  | CannotFindMapHeader : Error
  | UnexpectedNumberOfValuesForMap : Error
  | NoMinValue : Error
deriving DecidableEq, Repr

namespace Part2Opt

/-- `SeedRange` of part2_opt.rs: `{ start: u64, end: u64 }`.  The Rust field
`end` is a Lean keyword, rendered `end_`. -/
structure SeedRange where
  start : Nat
  end_ : Nat
deriving DecidableEq, Repr

/-- `SeedRange::is_empty` of part2_opt.rs: `self.start == self.end`. -/
def SeedRange.is_empty (s : SeedRange) : Bool :=
  s.start == s.end_

/-- Spec-side measure: the length `end - start + 1` of a closed interval. -/
def SeedRange.length (s : SeedRange) : Nat :=
  s.end_ - s.start + 1

/-- Spec-side measure: total length of an interval list. -/
def totalLength (l : List SeedRange) : Nat :=
  (l.map SeedRange.length).sum

/-- `MapRange` of part2_opt.rs. -/
structure MapRange where
  destination_start : Nat
  source_start : Nat
  range : Nat
deriving DecidableEq, Repr

/-- `MapRange::contains_value`: `value >= source_start && value < source_start + range`. -/
def MapRange.contains_value (m : MapRange) (value : Nat) : Bool :=
  decide (m.source_start ≤ value) && decide (value < m.source_start + m.range)

/-- `MapRange::map_value`: identity outside the source range, else
`destination_start + (value - source_start)`. -/
def MapRange.map_value (m : MapRange) (value : Nat) : Nat :=
  if m.contains_value value then m.destination_start + (value - m.source_start)
  else value

/-- `MapRange::map_contained_seed_range`: overlap test used by
`Map::map_seed_ranges` to decide whether a rule touches a range. -/
def MapRange.map_contained_seed_range (m : MapRange) (s : SeedRange) : Bool :=
  if s.start < m.source_start ∧ s.end_ < m.source_start then false
  else if m.source_start + m.range ≤ s.start ∧ m.source_start + m.range ≤ s.end_ then false
  else true

/-- `MapRange::map_seed_range` of part2_opt.rs, branch for branch: the two
out-of-bounds early returns, the contained case, the left-partial case (note
the source applies `map_value` twice to the already-mapped end), the
right-partial case, and the straddling case whose `before`/`after` remainders
are filtered through `is_empty`. -/
def MapRange.map_seed_range (m : MapRange) (s : SeedRange) : List SeedRange :=
  if s.end_ < m.source_start then [s]
  else if m.source_start + m.range ≤ s.start then [s]
  else if m.source_start ≤ s.start ∧ s.end_ ≤ m.source_start + m.range then
    [⟨m.map_value s.start, m.map_value s.end_⟩]
  else if s.start < m.source_start ∧ s.end_ ≤ m.source_start + m.range then
    [⟨s.start, m.source_start - 1⟩,
     ⟨m.map_value m.source_start, m.map_value (m.map_value s.end_)⟩]
  else if m.source_start ≤ s.start ∧ m.source_start + m.range < s.end_ then
    [⟨m.map_value s.start, m.map_value (m.source_start + m.range - 1)⟩,
     ⟨m.source_start + m.range, s.end_⟩]
  else
    let before : SeedRange := ⟨s.start, m.source_start - 1⟩
    let in_range : SeedRange :=
      ⟨m.map_value m.source_start, m.map_value (m.source_start + m.range - 1)⟩
    let after : SeedRange := ⟨m.source_start + m.range, s.end_⟩
    (if before.is_empty then [] else [before]) ++ [in_range] ++
      (if after.is_empty then [] else [after])

/-- `Map` of part2_opt.rs: one mapping stage. -/
structure Map where
  mapped_ranges : List MapRange
deriving DecidableEq, Repr

/-- `Map::get_mapped_value`: first rule whose source contains the value wins;
identity when none does. -/
def Map.get_mapped_value (m : Map) (value : Nat) : Nat :=
  match m.mapped_ranges.find? (fun mr => mr.contains_value value) with
  | some mr => mr.map_value value
  | none => value

/-- `Map::map_seed_ranges` of part2_opt.rs: for each input range, every rule
that overlaps it (per `map_contained_seed_range`) contributes the pieces of
`map_seed_range` applied to the ORIGINAL range, in rule order; a range that
overlaps no rule is passed through unchanged. -/
def Map.map_seed_ranges (m : Map) (seed_ranges : List SeedRange) : List SeedRange :=
  seed_ranges.flatMap (fun s =>
    if m.mapped_ranges.any (fun mr => mr.map_contained_seed_range s) then
      m.mapped_ranges.flatMap (fun mr =>
        if mr.map_contained_seed_range s then mr.map_seed_range s else [])
    else [s])

end Part2Opt

namespace Part1

/-- `MapRange` of part1.rs (the `new` constructor just packs the triple). -/
structure MapRange where
  destination_start : Nat
  source_start : Nat
  range : Nat
deriving DecidableEq, Repr

/-- `MapRange::contains_value` of part1.rs:
`value >= source_start && value < source_start + range`. -/
def MapRange.contains_value (m : MapRange) (value : Nat) : Bool :=
  decide (m.source_start ≤ value) && decide (value < m.source_start + m.range)

/-- `MapRange::map_value` of part1.rs. -/
def MapRange.map_value (m : MapRange) (value : Nat) : Nat :=
  if m.contains_value value then m.destination_start + (value - m.source_start)
  else value

/-- `Map` of part1.rs. -/
structure Map where
  mapped_values : List MapRange
deriving DecidableEq, Repr

/-- `Map::get_mapped_value` of part1.rs: `find` the first rule containing the
value, apply it, `unwrap_or(value)`. -/
def Map.get_mapped_value (m : Map) (value : Nat) : Nat :=
  match m.mapped_values.find? (fun mr => mr.contains_value value) with
  | some mr => mr.map_value value
  | none => value

/-- `Data` of part1.rs: the seven pipeline stages (the parsed seed list is
passed separately to `process`). -/
structure Data where
  seed_to_soil_map : Map
  soil_to_fertilizer_map : Map
  fertilizer_to_water_map : Map
  water_to_light_map : Map
  light_to_temperature_map : Map
  temparure_to_humity_map : Map
  humidity_to_location_map : Map
deriving DecidableEq, Repr

/-- `Data::map_seed` of part1.rs: chain the seven stages on one value. -/
def Data.map_seed (d : Data) (seed : Nat) : Nat :=
  d.humidity_to_location_map.get_mapped_value
    (d.temparure_to_humity_map.get_mapped_value
      (d.light_to_temperature_map.get_mapped_value
        (d.water_to_light_map.get_mapped_value
          (d.fertilizer_to_water_map.get_mapped_value
            (d.soil_to_fertilizer_map.get_mapped_value
              (d.seed_to_soil_map.get_mapped_value seed))))))

/-- The post-parsing part of `process` in part1.rs: map every seed through the
pipeline and take the minimum, `.ok_or(Error::NoMinValue)`. -/
def process (seeds : List Nat) (d : Data) : Except Error Nat :=
  match (seeds.map d.map_seed).min? with
  | some m => Except.ok m
  | none => Except.error Error.NoMinValue

end Part1

namespace Part1Opt

/-- `Range` of part1_opt.rs: `{ start: i64, end: i64 }`, half-open in
`contains`.  The Rust field `end` is a Lean keyword, rendered `end_`. -/
structure Range where
  start : Int
  end_ : Int
deriving DecidableEq, Repr

/-- `Range::is_empty` of part1_opt.rs. -/
def Range.is_empty (r : Range) : Bool :=
  r.start == r.end_

/-- `Range::contains` of part1_opt.rs: `value >= start && value < end`. -/
def Range.contains (r : Range) (value : Int) : Bool :=
  decide (r.start ≤ value) && decide (value < r.end_)

/-- `MapRange` of part1_opt.rs: a source range plus an additive offset. -/
structure MapRange where
  source_range : Range
  mapping_offset : Int
deriving DecidableEq, Repr

/-- `MapRange::new` of part1_opt.rs: from a
(destination_start, source_start, range) triple build
`source_range = [source_start, source_start + range)` and
`mapping_offset = destination_start - source_start`. -/
def MapRange.new (destination_start source_start range : Int) : MapRange :=
  ⟨⟨source_start, source_start + range⟩, destination_start - source_start⟩

/-- `MapRange::apply_to_value` of part1_opt.rs. -/
def MapRange.apply_to_value (m : MapRange) (value : Int) : Int :=
  if m.source_range.contains value then value + m.mapping_offset
  else value

/-- `Map` of part1_opt.rs. -/
structure Map where
  mapped_ranges : List MapRange
deriving DecidableEq, Repr

/-- `Map::apply_to_value` of part1_opt.rs: first rule whose source contains
the value, `unwrap_or(value)`. -/
def Map.apply_to_value (m : Map) (value : Int) : Int :=
  match m.mapped_ranges.find? (fun mr => mr.source_range.contains value) with
  | some mr => mr.apply_to_value value
  | none => value

/-- `process_seed` of part1_opt.rs: fold the stages over one value. -/
def process_seed (seed : Int) (maps : List Map) : Int :=
  maps.foldl (fun acc m => m.apply_to_value acc) seed

/-- The post-parsing part of `process` in part1_opt.rs: map every seed range's
start through the pipeline and take `.min().unwrap()`.  The `Option` result
models the `unwrap`: `none` is the panic on an empty seed list — this entry
point has no `Error::NoMinValue` path at all. -/
def process (seeds : List Range) (maps : List Map) : Option Int :=
  (seeds.map (fun s => process_seed s.start maps)).min?

end Part1Opt

end Day05

namespace Day05

namespace Part2Opt

/-- Claim C1: for every stage and every list of non-empty input intervals,
`Map::map_seed_ranges` conserves total length `Σ(end - start + 1)`.
Refuted by the code: the stage with the single rule
(dest=70, src=50, len=5) applied to `[[49, 57]]` returns
`[[70, 74], [55, 57]]` of total length 8, while the input has total length 9 —
the singleton remainder `[49, 49]` is dropped because `SeedRange::is_empty`
treats `start == end` as empty. -/
theorem C1_length_conservation_fails_at_49_57 :
    (Map.mk [⟨70, 50, 5⟩]).map_seed_ranges [⟨49, 57⟩] = [⟨70, 74⟩, ⟨55, 57⟩] ∧
    totalLength ((Map.mk [⟨70, 50, 5⟩]).map_seed_ranges [⟨49, 57⟩]) = 8 ∧
    totalLength [(⟨49, 57⟩ : SeedRange)] = 9 := by
  decide

/-- Claim C2: `MapRange::map_seed_range` translates the overlapping portion by
exactly the rule's offset and leaves before/after unmapped.  Refuted by the
code: the rule (dest=52, src=50, len=48) applied to candidate `[48, 51]`
returns `[[48, 49], [52, 55]]`, but the overlap `[50, 51]` translated by the
offset +2 is `[52, 53]` — the left-partial branch applies `map_value` a second
time to the already-mapped end (51 → 53 → 55). -/
theorem C2_overlap_translation_fails_at_48_51 :
    (⟨52, 50, 48⟩ : MapRange).map_seed_range ⟨48, 51⟩ = [⟨48, 49⟩, ⟨52, 55⟩] ∧
    [(⟨48, 49⟩ : SeedRange), ⟨52, 55⟩] ≠ [(⟨48, 49⟩ : SeedRange), ⟨52, 53⟩] := by
  decide

/-- Claim C3: unmapped before/after remainders continue through the remaining
rules of the same stage, and only intervals matching no rule pass through
unchanged.  Refuted by the code: with rules r1 = (dest=100, src=10, len=5) and
r2 = (dest=200, src=15, len=5), input `[[12, 17]]` yields
`[[102, 104], [15, 17], [12, 14], [200, 202]]` — the remainder `[15, 17]`
produced by r1 is emitted unchanged even though r2 maps it, because each rule
is applied to the ORIGINAL interval and all pieces go straight to the output
(values 15..17 are even duplicated, total length 12 versus input 6). -/
theorem C3_remainders_bypass_later_rules_at_12_17 :
    (Map.mk [⟨100, 10, 5⟩, ⟨200, 15, 5⟩]).map_seed_ranges [⟨12, 17⟩] =
      [⟨102, 104⟩, ⟨15, 17⟩, ⟨12, 14⟩, ⟨200, 202⟩] ∧
    (⟨15, 17⟩ : SeedRange) ∈
      (Map.mk [⟨100, 10, 5⟩, ⟨200, 15, 5⟩]).map_seed_ranges [⟨12, 17⟩] ∧
    totalLength ((Map.mk [⟨100, 10, 5⟩, ⟨200, 15, 5⟩]).map_seed_ranges [⟨12, 17⟩]) = 12 ∧
    totalLength [(⟨12, 17⟩ : SeedRange)] = 6 := by
  decide

/-- Claim C4: the non-empty parts of the three-way split computed by
`MapRange::map_seed_range` are pairwise disjoint and their union
reconstructs the candidate exactly.  Refuted by the code: the rule
(dest=70, src=50, len=5) applied to candidate `[49, 58]` returns
`[[70, 74], [55, 58]]` — the singleton before-part `[49, 49]` is dropped by
`is_empty`, so the value 49, which the rule leaves unmapped, appears in no
returned piece and the union misses it. -/
theorem C4_partition_law_fails_at_49_58 :
    (⟨70, 50, 5⟩ : MapRange).map_seed_range ⟨49, 58⟩ = [⟨70, 74⟩, ⟨55, 58⟩] ∧
    (¬ ∃ p ∈ (⟨70, 50, 5⟩ : MapRange).map_seed_range ⟨49, 58⟩,
        p.start ≤ 49 ∧ 49 ≤ p.end_) ∧
    (⟨49, 58⟩ : SeedRange).start ≤ 49 ∧ 49 ≤ (⟨49, 58⟩ : SeedRange).end_ := by
  decide

/-- Claim C6: every interval produced by the engine satisfies `start ≤ end`.
Refuted by the code: the rule (dest=70, src=50, len=5) applied to the
non-empty candidate `[50, 55]` takes the contained branch (whose guard uses
`end <= source_start + range`, an off-by-one against the half-open source
`[50, 55)`), maps 50 to 70 but leaves 55 unmapped, and returns the
malformed interval `[70, 55]` with `start > end`. -/
theorem C6_malformed_interval_at_50_55 :
    (⟨70, 50, 5⟩ : MapRange).map_seed_range ⟨50, 55⟩ = [⟨70, 55⟩] ∧
    (⟨70, 55⟩ : SeedRange).end_ < (⟨70, 55⟩ : SeedRange).start ∧
    (⟨50, 55⟩ : SeedRange).start ≤ (⟨50, 55⟩ : SeedRange).end_ := by
  decide

/-- Spec-side predicate: the (half-open) source intervals of two rules are
disjoint, as required by the stage invariant of the data model. -/
def disjoint_sources (a b : MapRange) : Prop :=
  a.source_start + a.range ≤ b.source_start ∨ b.source_start + b.range ≤ a.source_start

instance (a b : MapRange) : Decidable (disjoint_sources a b) := by
  unfold disjoint_sources
  infer_instance

/-- `List.any` only depends on the members of the list, so it is invariant
under permutation. -/
theorem any_eq_of_perm {α : Type} {l₁ l₂ : List α} (h : l₁.Perm l₂) (p : α → Bool) :
    l₁.any p = l₂.any p := by
  cases hb : l₂.any p with
  | true =>
    obtain ⟨x, hx, hp⟩ := List.any_eq_true.mp hb
    exact List.any_eq_true.mpr ⟨x, h.mem_iff.mpr hx, hp⟩
  | false =>
    rw [List.any_eq_false] at hb ⊢
    exact fun x hx => hb x (h.mem_iff.mp hx)

/-- Permuting a stage's rule list permutes the output of
`Map::map_seed_ranges`: each input range is matched against every rule
independently, so the blocks of output pieces are merely reordered. -/
theorem map_seed_ranges_perm_of_perm (rules rules' : List MapRange)
    (ranges : List SeedRange) (hperm : rules.Perm rules') :
    ((Map.mk rules).map_seed_ranges ranges).Perm
      ((Map.mk rules').map_seed_ranges ranges) := by
  unfold Map.map_seed_ranges
  apply List.Perm.flatMap_left
  intro s _
  rw [← any_eq_of_perm hperm (fun mr => mr.map_contained_seed_range s)]
  cases hc : (rules.any (fun mr => mr.map_contained_seed_range s)) with
  | true =>
    simp only [if_true]
    exact hperm.flatMap_right _
  | false =>
    simp only [Bool.false_eq_true, if_false]
    exact List.Perm.refl _

end Part2Opt

namespace Part2Opt

/-- Claim C7: for a stage whose rules have pairwise-disjoint source intervals,
applying the rules in any permutation of their stored order yields the same
output set from `Map::map_seed_ranges` on any input list. -/
theorem C7_order_independence (rules rules' : List MapRange)
    (ranges : List SeedRange) (hperm : rules.Perm rules')
    (_hdisj : rules.Pairwise disjoint_sources) :
    ∀ x, x ∈ (Map.mk rules').map_seed_ranges ranges ↔
      x ∈ (Map.mk rules).map_seed_ranges ranges :=
  fun _ => ((map_seed_ranges_perm_of_perm rules rules' ranges hperm).mem_iff).symm

/-- Witness for C7: swapping the two disjoint rules (100, 10, 5) and
(200, 15, 5) leaves membership in the stage output unchanged. -/
theorem C7_witness :
    ([(⟨100, 10, 5⟩ : MapRange), ⟨200, 15, 5⟩].Perm
        [(⟨200, 15, 5⟩ : MapRange), ⟨100, 10, 5⟩]) ∧
    ([(⟨100, 10, 5⟩ : MapRange), ⟨200, 15, 5⟩].Pairwise disjoint_sources) ∧
    ((⟨102, 104⟩ : SeedRange) ∈
        (Map.mk [⟨200, 15, 5⟩, ⟨100, 10, 5⟩]).map_seed_ranges [⟨12, 17⟩] ↔
      (⟨102, 104⟩ : SeedRange) ∈
        (Map.mk [⟨100, 10, 5⟩, ⟨200, 15, 5⟩]).map_seed_ranges [⟨12, 17⟩]) :=
  ⟨by decide, by decide,
    C7_order_independence [⟨100, 10, 5⟩, ⟨200, 15, 5⟩] [⟨200, 15, 5⟩, ⟨100, 10, 5⟩]
      [⟨12, 17⟩] (by decide) (by decide) ⟨102, 104⟩⟩

/-- Claim C9: `SeedRange::is_empty` holds on every single-element range
`{start: x, end: x}`, and consequently in the straddling branch of
`MapRange::map_seed_range` a before-remainder containing exactly one value
(here `start + 1 = source_start`) is omitted from the returned list. -/
theorem C9_singleton_empty_and_dropped (x : Nat) (r : MapRange) (s : SeedRange)
    (hr : 1 ≤ r.range) (hs : s.start + 1 = r.source_start)
    (he : r.source_start + r.range < s.end_) :
    SeedRange.is_empty ⟨x, x⟩ = true ∧
    r.map_seed_range s =
      [⟨r.destination_start, r.destination_start + (r.range - 1)⟩,
       ⟨r.source_start + r.range, s.end_⟩] := by
  constructor
  · simp [SeedRange.is_empty]
  · have h1 : ¬ (s.end_ < r.source_start) := by omega
    have h2 : ¬ (r.source_start + r.range ≤ s.start) := by omega
    have h3 : ¬ (r.source_start ≤ s.start ∧ s.end_ ≤ r.source_start + r.range) := by omega
    have h4 : ¬ (s.start < r.source_start ∧ s.end_ ≤ r.source_start + r.range) := by omega
    have h5 : ¬ (r.source_start ≤ s.start ∧ r.source_start + r.range < s.end_) := by omega
    have hb : (⟨s.start, r.source_start - 1⟩ : SeedRange).is_empty = true := by
      simp [SeedRange.is_empty]
      omega
    have ha : (⟨r.source_start + r.range, s.end_⟩ : SeedRange).is_empty = false := by
      simp [SeedRange.is_empty]
      omega
    have hc1 : r.contains_value r.source_start = true := by
      simp [MapRange.contains_value]
      omega
    have hc2 : r.contains_value (r.source_start + r.range - 1) = true := by
      simp [MapRange.contains_value]
      omega
    simp only [MapRange.map_seed_range, h1, h2, h3, h4, h5, if_false, hb, ha,
      MapRange.map_value, hc1, hc2, if_true, Bool.false_eq_true,
      List.nil_append, List.singleton_append]
    have e1 : r.source_start - r.source_start = 0 := Nat.sub_self _
    have e2 : r.source_start + r.range - 1 - r.source_start = r.range - 1 := by omega
    rw [e1, e2, Nat.add_zero]

/-- Witness for C9: the rule (dest=70, src=50, len=5) on candidate `[49, 57]`
drops the singleton remainder `[49, 49]`. -/
theorem C9_witness :
    ((1 : Nat) ≤ 5 ∧ 49 + 1 = 50 ∧ 50 + 5 < 57) ∧
    SeedRange.is_empty ⟨3, 3⟩ = true ∧
    (⟨70, 50, 5⟩ : MapRange).map_seed_range ⟨49, 57⟩ =
      [⟨70, 70 + (5 - 1)⟩, ⟨50 + 5, 57⟩] :=
  ⟨by decide,
    C9_singleton_empty_and_dropped 3 ⟨70, 50, 5⟩ ⟨49, 57⟩ (by decide) (by decide) (by decide)⟩

end Part2Opt

/-- The first matching element of `find?` over `l₁ ++ r :: l₂` is `r` when
nothing in `l₁` satisfies the predicate but `r` does. -/
theorem find?_first_match {α : Type} (p : α → Bool) (l₁ l₂ : List α) (r : α)
    (h₁ : ∀ x ∈ l₁, p x = false) (hr : p r = true) :
    (l₁ ++ r :: l₂).find? p = some r := by
  induction l₁ with
  | nil =>
    simpa using List.find?_cons_of_pos l₂ hr
  | cons a as ih =>
    have ha : p a = false := h₁ a (List.mem_cons_self a as)
    rw [List.cons_append, List.find?_cons_of_neg _ (by simp [ha])]
    exact ih (fun x hx => h₁ x (List.mem_cons_of_mem a hx))

/-- Claim C5: a rule derived from a triple (destination_start, source_start,
length) maps a value v to v + (destination_start - source_start) exactly when
source_start ≤ v ≤ source_start + length - 1 and leaves it unchanged otherwise
(part1.rs `MapRange::map_value` over u64, part1_opt.rs
`MapRange::apply_to_value` over i64); and the stage with rules (50, 98, 2) and
(52, 50, 48) maps 79 to 81, 14 to 14, 55 to 57 and 13 to 13 through
`Map::get_mapped_value`. -/
theorem C5_value_mapping_contract :
    (∀ (r : Part1.MapRange) (v : Nat),
      (r.source_start ≤ v ∧ v + 1 ≤ r.source_start + r.range →
        (r.map_value v : Int) =
          (v : Int) + ((r.destination_start : Int) - (r.source_start : Int))) ∧
      (¬(r.source_start ≤ v ∧ v + 1 ≤ r.source_start + r.range) →
        r.map_value v = v)) ∧
    (∀ (d s l v : Int),
      (s ≤ v ∧ v ≤ s + l - 1 →
        (Part1Opt.MapRange.new d s l).apply_to_value v = v + (d - s)) ∧
      (¬(s ≤ v ∧ v ≤ s + l - 1) →
        (Part1Opt.MapRange.new d s l).apply_to_value v = v)) ∧
    ((Part1.Map.mk [⟨50, 98, 2⟩, ⟨52, 50, 48⟩]).get_mapped_value 79 = 81 ∧
     (Part1.Map.mk [⟨50, 98, 2⟩, ⟨52, 50, 48⟩]).get_mapped_value 14 = 14 ∧
     (Part1.Map.mk [⟨50, 98, 2⟩, ⟨52, 50, 48⟩]).get_mapped_value 55 = 57 ∧
     (Part1.Map.mk [⟨50, 98, 2⟩, ⟨52, 50, 48⟩]).get_mapped_value 13 = 13) := by
  refine ⟨fun r v => ⟨?_, ?_⟩, fun d s l v => ⟨?_, ?_⟩, by decide⟩
  · intro h
    have hc : r.contains_value v = true := by
      simp [Part1.MapRange.contains_value]
      omega
    simp only [Part1.MapRange.map_value, hc, if_true]
    omega
  · intro h
    have hc : r.contains_value v = false := by
      simp [Part1.MapRange.contains_value]
      omega
    simp [Part1.MapRange.map_value, hc]
  · intro h
    have hc : Part1Opt.Range.contains ⟨s, s + l⟩ v = true := by
      simp [Part1Opt.Range.contains]
      omega
    simp [Part1Opt.MapRange.apply_to_value, Part1Opt.MapRange.new, hc]
  · intro h
    have hc : Part1Opt.Range.contains ⟨s, s + l⟩ v = false := by
      simp [Part1Opt.Range.contains]
      omega
    simp [Part1Opt.MapRange.apply_to_value, Part1Opt.MapRange.new, hc]

/-- Witness for C5: the rule (52, 50, 48) on the in-range value 79 and the
triple-derived rule on an out-of-range value. -/
theorem C5_witness :
    ((50 : Nat) ≤ 79 ∧ 79 + 1 ≤ 50 + 48) ∧
    ((⟨52, 50, 48⟩ : Part1.MapRange).map_value 79 : Int) =
      (79 : Int) + ((52 : Int) - (50 : Int)) :=
  ⟨by decide, (C5_value_mapping_contract.1 ⟨52, 50, 48⟩ 79).1 (by decide)⟩

/-- Claim C8 counterexample: the `process` of part1_opt.rs takes the minimum
with `.min().unwrap()`; on an empty seed list it panics (modelled `none`)
instead of signalling `Error::NoMinValue`, so not every process entry point
surfaces the no-result error. -/
theorem C8_part1opt_process_panics_on_empty :
    Part1Opt.process [] [] = Option.none := rfl

/-- Claim C8 (amended): on an empty seed set the `process` of part1.rs
signals `Error::NoMinValue`, while the `process` of part1_opt.rs instead
panics on `unwrap` (modelled as `none`; it has no error channel at all). -/
theorem C8_empty_seed_outcomes (d : Part1.Data) (maps : List Part1Opt.Map) :
    Part1.process [] d = Except.error Error.NoMinValue ∧
    Part1Opt.process [] maps = Option.none :=
  ⟨rfl, rfl⟩

/-- Claim C10: stage-level value lookup is total and deterministic with
first-match semantics — `Map::get_mapped_value` (part1.rs) and
`Map::apply_to_value` (part1_opt.rs) return the value translated by the first
rule in stored order whose source contains it, and the value unchanged when no
rule contains it, with no error even for overlapping rules. -/
theorem C10_first_match_semantics :
    (∀ (l₁ l₂ : List Part1.MapRange) (r : Part1.MapRange) (v : Nat),
      (∀ x ∈ l₁, x.contains_value v = false) → r.contains_value v = true →
      (Part1.Map.mk (l₁ ++ r :: l₂)).get_mapped_value v = r.map_value v) ∧
    (∀ (rules : List Part1.MapRange) (v : Nat),
      (∀ x ∈ rules, x.contains_value v = false) →
      (Part1.Map.mk rules).get_mapped_value v = v) ∧
    (∀ (l₁ l₂ : List Part1Opt.MapRange) (r : Part1Opt.MapRange) (v : Int),
      (∀ x ∈ l₁, x.source_range.contains v = false) →
      r.source_range.contains v = true →
      (Part1Opt.Map.mk (l₁ ++ r :: l₂)).apply_to_value v = r.apply_to_value v) ∧
    (∀ (rules : List Part1Opt.MapRange) (v : Int),
      (∀ x ∈ rules, x.source_range.contains v = false) →
      (Part1Opt.Map.mk rules).apply_to_value v = v) := by
  refine ⟨fun l₁ l₂ r v h₁ hr => ?_, fun rules v h => ?_,
    fun l₁ l₂ r v h₁ hr => ?_, fun rules v h => ?_⟩
  · have hf := find?_first_match (fun mr => mr.contains_value v) l₁ l₂ r h₁ hr
    simp [Part1.Map.get_mapped_value, hf]
  · have hf : rules.find? (fun mr => mr.contains_value v) = none :=
      List.find?_eq_none.mpr (fun x hx => by simp [h x hx])
    simp [Part1.Map.get_mapped_value, hf]
  · have hf := find?_first_match (fun mr => mr.source_range.contains v) l₁ l₂ r h₁ hr
    simp [Part1Opt.Map.apply_to_value, hf]
  · have hf : rules.find? (fun mr => mr.source_range.contains v) = none :=
      List.find?_eq_none.mpr (fun x hx => by simp [h x hx])
    simp [Part1Opt.Map.apply_to_value, hf]

/-- Witness for C10: with two overlapping rules containing 10, the first one
in stored order (dest=50, src=10, len=5) decides the result, and the empty
stage is the identity. -/
theorem C10_witness :
    (Part1.Map.mk [⟨100, 0, 5⟩, ⟨50, 10, 5⟩, ⟨999, 10, 5⟩]).get_mapped_value 10 =
      (⟨50, 10, 5⟩ : Part1.MapRange).map_value 10 ∧
    (Part1.Map.mk []).get_mapped_value 7 = 7 :=
  ⟨C10_first_match_semantics.1 [⟨100, 0, 5⟩] [⟨999, 10, 5⟩] ⟨50, 10, 5⟩ 10
      (by decide) (by decide),
    C10_first_match_semantics.2.1 [] 7 (by decide)⟩

end Day05
